import Mathlib

/-
Verification of the simplerelic metrics library (metrics.go, reporter.go,
handlers.go) against its specification.

Modelling conventions:
* A Go map is modelled as an association list of its entries, listed in one
  particular iteration order.  Go map reads of a missing key yield the zero
  value (`goLookupD` with an explicit default), and a Go map assignment
  either replaces the entry holding the key or adds a fresh entry
  (`goInsert`).  Go's iteration order over a map is unspecified, so a fact
  about "the map" must hold for every permutation of its entry list.
* float32 values are modelled as rationals; counters are naturals.
* The reporter's timer goroutine (Reporter.Start) is modelled as a step
  machine over `LoopState`: each delivered event is either a ticker tick
  whose sendMetrics call runs with a given fault, or a message on the local
  `quit` channel.
-/

set_option maxHeartbeats 1000000

namespace simplerelic

/-- Entry lookup in a Go map modelled as an association list: the first entry
holding the key, if any. -/
def goLookup {α : Type} (m : List (String × α)) (k : String) : Option α :=
  match m with
  | [] => none
  | (k', v) :: rest => if k' = k then some v else goLookup rest k

/-- Go map read with default: a missing key reads as the zero value `d`. -/
def goLookupD {α : Type} (m : List (String × α)) (k : String) (d : α) : α :=
  (goLookup m k).getD d

/-- Go map assignment `m[k] = v`: replaces the entry holding `k`, or appends a
fresh entry. -/
def goInsert {α : Type} (m : List (String × α)) (k : String) (v : α) : List (String × α) :=
  match m with
  | [] => [(k, v)]
  | (k', v') :: rest => if k' = k then (k, v) :: rest else (k', v') :: goInsert rest k v

/-- Sentinel endpoint name for unmatched paths (metrics.go, `unknownEndpoint`). -/
def unknownEndpoint : String := "other"

/-- A matcher function takes a URL path and tells whether it belongs to the
endpoint. -/
abbrev Matcher := String → Bool

/-- StandardMetric.endpointFromURL (metrics.go lines 296-304): iterates the
`endpoints` map (here: its entries in one iteration order) and returns the
name of the first matcher that returns true, or the sentinel when none does. -/
def endpointFromURL (endpoints : List (String × Matcher)) (urlPath : String) : String :=
  match endpoints with
  | [] => unknownEndpoint
  | (name, isMatchFunc) :: rest =>
    if isMatchFunc urlPath then name else endpointFromURL rest urlPath

/-- AddDefaultEndpoint (handlers.go lines 113-115): a plain Go map assignment
`DefaultEndpoints[name] = matcherFunc`.  It returns nothing: there is no
error result. -/
def AddDefaultEndpoint (table : List (String × Matcher)) (name : String)
    (matcherFunc : Matcher) : List (String × Matcher) :=
  goInsert table name matcherFunc

/-- StandardMetric.initReqCount (metrics.go lines 286-292) generalised over the
zero value written: writes `z` for every registered endpoint, then for the
sentinel.  Used with `z = 0` for the counter maps and with `z = [0]` for the
response-time map (`make([]float32, 1)` is a one-element all-zero slice). -/
def initMapWith {α : Type} (endpoints : List (String × Matcher)) (z : α) :
    List (String × α) :=
  goInsert (endpoints.foldl (fun acc e => goInsert acc e.1 z) []) unknownEndpoint z

/-- StandardMetric.initReqCount (metrics.go lines 286-292). -/
def initReqCount (endpoints : List (String × Matcher)) : List (String × Nat) :=
  initMapWith endpoints 0

/-- ReqPerEndpoint (metrics.go lines 310-313): per-endpoint request counters. -/
structure ReqPerEndpoint where
  endpoints : List (String × Matcher)
  reqCount : List (String × Nat)

/-- NewReqPerEndpoint (metrics.go lines 316-331). -/
def NewReqPerEndpoint (endpoints : List (String × Matcher)) : ReqPerEndpoint :=
  { endpoints := endpoints, reqCount := initReqCount endpoints }

/-- Metric name for one endpoint of ReqPerEndpoint:
namePrefix ++ endpoint ++ metricUnit (metrics.go line 348). -/
def rpeKey (endpoint : String) : String :=
  "Component/ReqPerEndpoint/" ++ endpoint ++ "[requests]"

/-- Overall metric name of ReqPerEndpoint: allEPNamePrefix ++ metricUnit
(metrics.go line 353). -/
def rpeOverallKey : String :=
  "Component/Req/overall" ++ "[requests]"

/-- ReqPerEndpoint.Update (metrics.go lines 334-339): classify the path and
increment that endpoint's counter. -/
def ReqPerEndpoint.Update (m : ReqPerEndpoint) (urlPath : String) : ReqPerEndpoint :=
  { m with reqCount :=
      (goInsert m.reqCount (endpointFromURL m.endpoints urlPath)
        (goLookupD m.reqCount (endpointFromURL m.endpoints urlPath) 0 + 1)) }

/-- ReqPerEndpoint.ValueMap (metrics.go lines 342-357): report every counter
as a float under its metric name, plus the overall sum, and zero every
counter.  Returns the reported metrics together with the state after the
drain. -/
def ReqPerEndpoint.ValueMap (m : ReqPerEndpoint) :
    List (String × ℚ) × ReqPerEndpoint :=
  ((m.reqCount.map fun ev => (rpeKey ev.1, ((ev.2 : Nat) : ℚ))) ++
      [(rpeOverallKey, (((m.reqCount.map fun ev => ev.2).sum : Nat) : ℚ))],
    { m with reqCount := m.reqCount.map fun ev => (ev.1, 0) })

/-- ErrorRatePerEndpoint (metrics.go lines 364-367). -/
structure ErrorRatePerEndpoint where
  endpoints : List (String × Matcher)
  reqCount : List (String × Nat)
  errorCount : List (String × Nat)

/-- NewErrorRatePerEndpoint (metrics.go lines 370-391): both counter maps are
pre-populated with zeroes for every registered endpoint and the sentinel. -/
def NewErrorRatePerEndpoint (endpoints : List (String × Matcher)) :
    ErrorRatePerEndpoint :=
  { endpoints := endpoints
    reqCount := initReqCount endpoints
    errorCount := initMapWith endpoints 0 }

/-- Metric name for one endpoint of ErrorRatePerEndpoint (metrics.go line 413). -/
def erpeKey (endpoint : String) : String :=
  "Component/ErrorRatePerEndpoint/" ++ endpoint ++ "[percent]"

/-- Overall metric name of ErrorRatePerEndpoint (metrics.go line 427). -/
def erpeOverallKey : String :=
  "Component/ErrorRate/overall" ++ "[percent]"

/-- ErrorRatePerEndpoint.Update (metrics.go lines 394-402): classify the path,
increment the error counter when the response status is at least 400, and
always increment the request counter, both on the classified endpoint. -/
def ErrorRatePerEndpoint.Update (m : ErrorRatePerEndpoint) (urlPath : String)
    (status : Nat) : ErrorRatePerEndpoint :=
  { m with
      errorCount :=
        (if 400 ≤ status then
          goInsert m.errorCount (endpointFromURL m.endpoints urlPath)
            (goLookupD m.errorCount (endpointFromURL m.endpoints urlPath) 0 + 1)
        else m.errorCount)
      reqCount :=
        (goInsert m.reqCount (endpointFromURL m.endpoints urlPath)
          (goLookupD m.reqCount (endpointFromURL m.endpoints urlPath) 0 + 1)) }

/-- ErrorRatePerEndpoint.ValueMap (metrics.go lines 405-435): for every key of
the error map report errorCount/reqCount (0 when reqCount is 0), report the
overall ratio of summed errors over summed requests (0 when there were no
requests), and zero both maps on the visited keys. -/
def ErrorRatePerEndpoint.ValueMap (m : ErrorRatePerEndpoint) :
    List (String × ℚ) × ErrorRatePerEndpoint :=
  ((m.errorCount.map fun ev =>
      (erpeKey ev.1,
        if 0 < goLookupD m.reqCount ev.1 0 then
          ((ev.2 : Nat) : ℚ) / ((goLookupD m.reqCount ev.1 0 : Nat) : ℚ)
        else 0)) ++
      [(erpeOverallKey,
        if 0 < (m.errorCount.map fun ev => goLookupD m.reqCount ev.1 0).sum then
          (((m.errorCount.map fun ev => ev.2).sum : Nat) : ℚ) /
            (((m.errorCount.map fun ev => goLookupD m.reqCount ev.1 0).sum : Nat) : ℚ)
        else 0)],
    { m with
        errorCount := m.errorCount.map fun ev => (ev.1, 0)
        reqCount :=
          ((m.errorCount.map Prod.fst).foldl (fun rc k => goInsert rc k 0) m.reqCount) })

/-- ResponseTimePerEndpoint (metrics.go lines 442-445). -/
structure ResponseTimePerEndpoint where
  endpoints : List (String × Matcher)
  reqCount : List (String × Nat)
  responseTime : List (String × List ℚ)

/-- NewResponseTimePerEndpoint (metrics.go lines 448-470): the counter map is
zeroed and every response-time slice starts as a one-element all-zero slice. -/
def NewResponseTimePerEndpoint (endpoints : List (String × Matcher)) :
    ResponseTimePerEndpoint :=
  { endpoints := endpoints
    reqCount := initReqCount endpoints
    responseTime := initMapWith endpoints [0] }

/-- Metric name for one endpoint of ResponseTimePerEndpoint (metrics.go line 500). -/
def rtpeKey (endpoint : String) : String :=
  "Component/ResponseTimePerEndpoint/" ++ endpoint ++ "[ms]"

/-- Overall metric name of ResponseTimePerEndpoint (metrics.go line 518). -/
def rtpeOverallKey : String :=
  "Component/ResponseTime/overall" ++ "[ms]"

/-- ResponseTimePerEndpoint.Update (metrics.go lines 473-488): the request
context is queried for the "reqStartTime" value; when it is absent the update
logs the condition and returns without touching any state (the returned flag
records that the recoverable error was logged).  Otherwise the elapsed time is
recorded and the endpoint's request counter incremented. -/
def ResponseTimePerEndpoint.Update (m : ResponseTimePerEndpoint)
    (reqStartTime : Option ℚ) (now : ℚ) (urlPath : String) :
    ResponseTimePerEndpoint × Bool :=
  match reqStartTime with
  | none => (m, true)
  | some startTime =>
    ({ m with
        reqCount :=
          (goInsert m.reqCount (endpointFromURL m.endpoints urlPath)
            (goLookupD m.reqCount (endpointFromURL m.endpoints urlPath) 0 + 1))
        responseTime :=
          (goInsert m.responseTime (endpointFromURL m.endpoints urlPath)
            (goLookupD m.responseTime (endpointFromURL m.endpoints urlPath) [] ++
              [now - startTime])) },
      false)

/-- ResponseTimePerEndpoint.ValueMap (metrics.go lines 491-526): for every key
of the response-time map report the pooled average sum/reqCount (0 when
reqCount is 0), report the overall pooled average of all recorded times over
all requests, zero the visited counters and reset every slice to the
one-element all-zero slice. -/
def ResponseTimePerEndpoint.ValueMap (m : ResponseTimePerEndpoint) :
    List (String × ℚ) × ResponseTimePerEndpoint :=
  ((m.responseTime.map fun ev =>
      (rtpeKey ev.1,
        if 0 < goLookupD m.reqCount ev.1 0 then
          ev.2.sum / ((goLookupD m.reqCount ev.1 0 : Nat) : ℚ)
        else 0)) ++
      [(rtpeOverallKey,
        if 0 < (m.responseTime.map fun ev => goLookupD m.reqCount ev.1 0).sum then
          (m.responseTime.map fun ev => ev.2.sum).sum /
            (((m.responseTime.map fun ev => goLookupD m.reqCount ev.1 0).sum : Nat) : ℚ)
        else 0)],
    { m with
        reqCount :=
          ((m.responseTime.map Prod.fst).foldl (fun rc k => goInsert rc k 0) m.reqCount)
        responseTime := m.responseTime.map fun ev => (ev.1, [0]) })

/-- Fault that can occur while one tick's sendMetrics call runs
(reporter.go lines 130-155 and 184-213). -/
inductive TickFault
  | noFault
  | serializationFailure
  | transmissionFailure
  | runtimePanic
deriving DecidableEq

/-- An event delivered to the select loop of the goroutine started by
Reporter.Start (reporter.go lines 100-122): either the ticker fires and
sendMetrics runs with the given fault, or a message arrives on the local
`quit` channel. -/
inductive LoopEvent
  | tick (fault : TickFault)
  | quitSignal
deriving DecidableEq

/-- State of the goroutine started by Reporter.Start. -/
structure LoopState where
  goroutineRunning : Bool
  tickerActive : Bool
  crashLogged : Bool
deriving DecidableEq

/-- State right after Reporter.Start: the goroutine loops and the ticker is
live. -/
def startLoopState : LoopState :=
  { goroutineRunning := true, tickerActive := true, crashLogged := false }

/-- Whether sendMetrics returns normally under the fault.  A json.Marshal
failure is swallowed (the fmt.Errorf result is discarded, reporter.go lines
142-145) and a failed or non-200 POST merely returns (lines 193-212), so only
an unanticipated runtime panic escapes sendMetrics. -/
def sendMetricsCompletes : TickFault → Bool
  | .runtimePanic => false
  | _ => true

/-- One iteration of the select loop (reporter.go lines 104-121).  The second
component records whether this event made the loop invoke sendMetrics.  A
panic escaping sendMetrics is caught by the deferred recover wrapped around
the whole goroutine body (lines 106-110), which logs "SimpleRelic reporter
crashed"; the goroutine then returns, so the loop is gone.  A quit message
stops the ticker and returns. -/
def loopStep (s : LoopState) (e : LoopEvent) : LoopState × Bool :=
  if s.goroutineRunning then
    match e with
    | .quitSignal => ({ s with goroutineRunning := false, tickerActive := false }, false)
    | .tick fault =>
      if s.tickerActive then
        if sendMetricsCompletes fault then (s, true)
        else ({ s with goroutineRunning := false, crashLogged := true }, true)
      else (s, false)
  else (s, false)

/-- Deliver a sequence of events to the loop; counts how many of them made the
loop invoke sendMetrics. -/
def runLoop (s : LoopState) (events : List LoopEvent) : LoopState × Nat :=
  match events with
  | [] => (s, 0)
  | e :: rest =>
    ((runLoop (loopStep s e).1 rest).1,
      (if (loopStep s e).2 then 1 else 0) + (runLoop (loopStep s e).1 rest).2)

/-- The matcher registered in the repository's tests: accepts the "/log"
path. -/
def logMatcher : Matcher := fun p => p == "/log"

/-- Concrete matcher accepting exactly "/x". -/
def xMatcher : Matcher := fun p => p == "/x"

/-- Concrete matcher accepting "/x" and "/y": overlaps with `xMatcher` on
"/x". -/
def xyMatcher : Matcher := fun p => p == "/x" || p == "/y"

/-- Concrete matcher accepting every path. -/
def allMatcher : Matcher := fun _ => true

/-- A burst of requests delivered to ReqPerEndpoint.Update, one path each. -/
def applyReqUpdates (m : ReqPerEndpoint) (ps : List String) : ReqPerEndpoint :=
  ps.foldl ReqPerEndpoint.Update m

/-- A burst of requests delivered to ErrorRatePerEndpoint.Update, each a pair
of a path and a response status code. -/
def applyErrorRateUpdates (m : ErrorRatePerEndpoint) (us : List (String × Nat)) :
    ErrorRatePerEndpoint :=
  us.foldl (fun acc u => acc.Update u.1 u.2) m

/-- The error-rate accumulator of the repository's TestErrorRate scenario:
endpoint "log", four requests with status 404, then four with status 200. -/
def m8 : ErrorRatePerEndpoint :=
  applyErrorRateUpdates
    (NewErrorRatePerEndpoint (AddDefaultEndpoint [] "log" logMatcher))
    [("/log", 404), ("/log", 404), ("/log", 404), ("/log", 404),
      ("/log", 200), ("/log", 200), ("/log", 200), ("/log", 200)]

/-- Invariant of ErrorRatePerEndpoint: the error-map keys are duplicate-free
and no endpoint's error count exceeds its request count. -/
def ErrInv (m : ErrorRatePerEndpoint) : Prop :=
  ((m.errorCount.map Prod.fst).Nodup) ∧
    (∀ k : String, goLookupD m.errorCount k 0 ≤ goLookupD m.reqCount k 0)

/-- Looking up the key just written finds the written value. -/
theorem goLookup_goInsert_self {α : Type} (m : List (String × α)) (k : String) (v : α) :
    goLookup (goInsert m k v) k = some v := by
  induction m with
  | nil => simp [goInsert, goLookup]
  | cons e rest ih =>
    obtain ⟨k', v'⟩ := e
    by_cases h : k' = k
    · simp [goInsert, h, goLookup]
    · simp [goInsert, h, goLookup, ih]

/-- Writing one key leaves lookups of other keys unchanged. -/
theorem goLookup_goInsert_ne {α : Type} (m : List (String × α)) (k k' : String) (v : α)
    (h : k' ≠ k) : goLookup (goInsert m k v) k' = goLookup m k' := by
  induction m with
  | nil => simp [goInsert, goLookup, Ne.symm h]
  | cons e rest ih =>
    obtain ⟨k0, v0⟩ := e
    by_cases h0 : k0 = k
    · subst h0; simp [goInsert, goLookup, Ne.symm h]
    · simp [goInsert, h0, goLookup, ih]

/-- Defaulted lookup after a Go map assignment. -/
theorem goLookupD_goInsert {α : Type} (m : List (String × α)) (k k' : String) (v d : α) :
    goLookupD (goInsert m k v) k' d = if k' = k then v else goLookupD m k' d := by
  by_cases h : k' = k
  · subst h; simp [goLookupD, goLookup_goInsert_self]
  · simp [goLookupD, goLookup_goInsert_ne m k k' v h, h]

/-- A successful lookup exposes an entry of the list. -/
theorem mem_of_goLookup_eq_some {α : Type} {m : List (String × α)} {k : String} {v : α}
    (h : goLookup m k = some v) : (k, v) ∈ m := by
  induction m with
  | nil => simp [goLookup] at h
  | cons e rest ih =>
    obtain ⟨k', v'⟩ := e
    by_cases hk : k' = k
    · subst hk
      simp only [goLookup, if_true, eq_self_iff_true, Option.some.injEq] at h
      subst h; exact List.mem_cons_self _ _
    · simp only [goLookup, if_neg hk] at h
      exact List.mem_cons_of_mem _ (ih h)

/-- A key present in the key list is found by lookup, and the found value is an
entry. -/
theorem exists_goLookup_of_mem_fst {α : Type} {m : List (String × α)} {k : String}
    (h : k ∈ m.map Prod.fst) : ∃ v, goLookup m k = some v ∧ (k, v) ∈ m := by
  induction m with
  | nil => simp at h
  | cons e rest ih =>
    obtain ⟨k', v'⟩ := e
    by_cases hk : k' = k
    · subst hk
      exact ⟨v', by simp [goLookup], List.mem_cons_self _ _⟩
    · have h' : k ∈ rest.map Prod.fst := by
        rcases List.mem_cons.1 h with h1 | h1
        · exact absurd h1.symm hk
        · exact h1
      obtain ⟨v, hv, hmem⟩ := ih h'
      exact ⟨v, by simp [goLookup, hk, hv], List.mem_cons_of_mem _ hmem⟩

/-- With duplicate-free keys, lookup of an entry's key returns that entry's
value. -/
theorem goLookup_eq_some_of_mem {α : Type} {m : List (String × α)} {k : String} {v : α}
    (hnd : (m.map Prod.fst).Nodup) (hmem : (k, v) ∈ m) : goLookup m k = some v := by
  induction m with
  | nil => simp at hmem
  | cons e rest ih =>
    obtain ⟨k', v'⟩ := e
    rcases List.mem_cons.1 hmem with heq | hmem'
    · rw [Prod.mk.injEq] at heq
      obtain ⟨h1, h2⟩ := heq
      subst h1; subst h2
      simp [goLookup]
    · have hk : k' ≠ k := by
        intro hh; subst hh
        exact (List.nodup_cons.1 hnd).1 (List.mem_map.2 ⟨(k', v), hmem', rfl⟩)
      rw [List.map_cons, List.nodup_cons] at hnd
      simp only [goLookup, if_neg hk]
      exact ih hnd.2 hmem'

/-- With duplicate-free keys, the defaulted lookup of an entry's key is its
value. -/
theorem goLookupD_eq_of_mem {α : Type} {m : List (String × α)} {k : String} {v : α}
    (hnd : (m.map Prod.fst).Nodup) (hmem : (k, v) ∈ m) (d : α) : goLookupD m k d = v := by
  simp [goLookupD, goLookup_eq_some_of_mem hnd hmem]

/-- Key membership after a Go map assignment. -/
theorem mem_map_fst_goInsert {α : Type} (m : List (String × α)) (k k' : String) (v : α) :
    k' ∈ (goInsert m k v).map Prod.fst ↔ k' ∈ m.map Prod.fst ∨ k' = k := by
  induction m with
  | nil => simp [goInsert]
  | cons e rest ih =>
    obtain ⟨k0, v0⟩ := e
    by_cases h0 : k0 = k
    · subst h0
      simp [goInsert, List.mem_cons]
      tauto
    · simp [goInsert, h0, List.mem_cons, ih]
      tauto

/-- Assigning to a key already present leaves the key list unchanged. -/
theorem map_fst_goInsert_of_mem {α : Type} {m : List (String × α)} {k : String} (v : α)
    (h : k ∈ m.map Prod.fst) : (goInsert m k v).map Prod.fst = m.map Prod.fst := by
  induction m with
  | nil => simp at h
  | cons e rest ih =>
    obtain ⟨k0, v0⟩ := e
    by_cases h0 : k0 = k
    · subst h0; simp [goInsert]
    · have h' : k ∈ rest.map Prod.fst := by
        rcases List.mem_cons.1 h with h1 | h1
        · exact absurd h1.symm h0
        · exact h1
      simp [goInsert, h0, ih h']

/-- Go map assignment never duplicates a key. -/
theorem nodup_map_fst_goInsert {α : Type} {m : List (String × α)} (k : String) (v : α)
    (hnd : (m.map Prod.fst).Nodup) : ((goInsert m k v).map Prod.fst).Nodup := by
  induction m with
  | nil => simp [goInsert]
  | cons e rest ih =>
    obtain ⟨k0, v0⟩ := e
    rw [List.map_cons, List.nodup_cons] at hnd
    by_cases h0 : k0 = k
    · subst h0
      simpa [goInsert, List.nodup_cons] using hnd
    · simp only [goInsert, if_neg h0, List.map_cons, List.nodup_cons]
      refine ⟨?_, ih hnd.2⟩
      rw [mem_map_fst_goInsert]
      rintro (h1 | h1)
      · exact hnd.1 h1
      · exact h0 h1

/-- Writing the zero value into an all-zero map keeps it all-zero. -/
theorem all_snd_goInsert {α : Type} {z : α} {m : List (String × α)} {k : String}
    {v : α} (hm : ∀ e ∈ m, e.2 = z) (hv : v = z) : ∀ e ∈ goInsert m k v, e.2 = z := by
  induction m with
  | nil => simpa [goInsert] using hv
  | cons e rest ih =>
    obtain ⟨k0, v0⟩ := e
    by_cases h0 : k0 = k
    · subst h0
      intro e he
      rcases List.mem_cons.1 (by simpa [goInsert] using he) with h1 | h1
      · subst h1; exact hv
      · exact hm _ (List.mem_cons_of_mem _ h1)
    · intro e he
      rcases List.mem_cons.1 (by simpa [goInsert, h0] using he) with h1 | h1
      · subst h1; exact hm _ (List.mem_cons_self _ _)
      · exact ih (fun e' he' => hm _ (List.mem_cons_of_mem _ he')) _ h1

/-- Every value written by the initialisation fold is the zero value. -/
theorem all_snd_foldl_insert {α : Type} (eps : List (String × Matcher)) (z : α) :
    ∀ acc : List (String × α), (∀ e ∈ acc, e.2 = z) →
      ∀ e ∈ eps.foldl (fun a e => goInsert a e.1 z) acc, e.2 = z := by
  induction eps with
  | nil => intro acc hacc; simpa [List.foldl] using hacc
  | cons e0 rest ih =>
    intro acc hacc
    exact ih (goInsert acc e0.1 z) (all_snd_goInsert hacc rfl)

/-- Every value of a freshly initialised accumulator map is the zero value. -/
theorem all_snd_initMapWith {α : Type} (eps : List (String × Matcher)) (z : α) :
    ∀ e ∈ initMapWith eps z, e.2 = z :=
  all_snd_goInsert (all_snd_foldl_insert eps z [] (by simp)) rfl

/-- When every value of the map is `z`, the defaulted lookup yields `z`. -/
theorem goLookupD_eq_of_all {α : Type} {m : List (String × α)} {z : α}
    (h : ∀ e ∈ m, e.2 = z) (k : String) : goLookupD m k z = z := by
  cases hl : goLookup m k with
  | none => simp [goLookupD, hl]
  | some v =>
    have hv : v = z := h (k, v) (mem_of_goLookup_eq_some hl)
    simp [goLookupD, hl, hv]

/-- Key membership in the initialisation fold. -/
theorem mem_map_fst_foldl_insert {α : Type} (eps : List (String × Matcher)) (z : α)
    (k : String) : ∀ acc : List (String × α),
      (k ∈ (eps.foldl (fun a e => goInsert a e.1 z) acc).map Prod.fst ↔
        k ∈ acc.map Prod.fst ∨ k ∈ eps.map Prod.fst) := by
  induction eps with
  | nil => intro acc; simp
  | cons e0 rest ih =>
    intro acc
    rw [List.foldl_cons, ih (goInsert acc e0.1 z), mem_map_fst_goInsert]
    simp only [List.map_cons, List.mem_cons]
    tauto

/-- Key membership in a freshly initialised accumulator map: exactly the
registered endpoints plus the sentinel. -/
theorem mem_map_fst_initMapWith {α : Type} (eps : List (String × Matcher)) (z : α)
    (k : String) : k ∈ (initMapWith eps z).map Prod.fst ↔
      k ∈ eps.map Prod.fst ∨ k = unknownEndpoint := by
  rw [initMapWith, mem_map_fst_goInsert, mem_map_fst_foldl_insert]
  simp

/-- Freshly initialised accumulator maps have duplicate-free keys. -/
theorem nodup_map_fst_initMapWith {α : Type} (eps : List (String × Matcher)) (z : α) :
    ((initMapWith eps z).map Prod.fst).Nodup := by
  have hfold : ∀ acc : List (String × α), (acc.map Prod.fst).Nodup →
      ((eps.foldl (fun a e => goInsert a e.1 z) acc).map Prod.fst).Nodup := by
    induction eps with
    | nil => intro acc hacc; simpa using hacc
    | cons e0 rest ih =>
      intro acc hacc
      exact ih (goInsert acc e0.1 z) (nodup_map_fst_goInsert _ _ hacc)
  exact nodup_map_fst_goInsert _ _ (hfold [] (by simp))

/-- A counter increment raises the total of all counters by one, whether or not
the key was present. -/
theorem sum_map_snd_goInsert_bump (m : List (String × Nat)) (k : String) :
    ((goInsert m k (goLookupD m k 0 + 1)).map fun ev => ev.2).sum
      = (m.map fun ev => ev.2).sum + 1 := by
  induction m with
  | nil => simp [goInsert, goLookupD, goLookup]
  | cons e rest ih =>
    obtain ⟨k0, v0⟩ := e
    by_cases h0 : k0 = k
    · subst h0
      simp [goInsert, goLookupD, goLookup]
      omega
    · have hD : goLookupD ((k0, v0) :: rest) k 0 = goLookupD rest k 0 := by
        simp [goLookupD, goLookup, h0]
      simp only [goInsert, if_neg h0, List.map_cons, List.sum_cons, hD, ih]
      omega

/-- Concatenation of fixed strings around a key is injective in the key. -/
theorem strcat_inj (p u : String) (a b : String) (h : p ++ a ++ u = p ++ b ++ u) :
    a = b := by
  apply String.ext
  have h2 := congrArg String.data h
  simp only [String.data_append] at h2
  exact List.append_cancel_left (List.append_cancel_right h2)

/-- A per-endpoint metric name never equals the overall metric name, whose
leading part is strictly shorter. -/
theorem strcat_ne_overall (p u q : String) (e : String) (hq : q.length < p.length) :
    p ++ e ++ u ≠ q ++ u := by
  intro h
  have h2 := congrArg String.length h
  simp only [String.length_append] at h2
  omega

/-- Lookup in the per-endpoint block of a reported metrics list, for any
injective name encoding. -/
theorem goLookup_map_enc {α : Type} (enc : String → String) (g : String × α → ℚ)
    (hinj : ∀ a b : String, enc a = enc b → a = b)
    (m : List (String × α)) (hnd : (m.map Prod.fst).Nodup)
    (k : String) (v : α) (hmem : (k, v) ∈ m) :
    goLookup (m.map fun ev => (enc ev.1, g ev)) (enc k) = some (g (k, v)) := by
  induction m with
  | nil => simp at hmem
  | cons e rest ih =>
    obtain ⟨k', v'⟩ := e
    rcases List.mem_cons.1 hmem with heq | hmem'
    · rw [Prod.mk.injEq] at heq
      obtain ⟨h1, h2⟩ := heq
      subst h1; subst h2
      simp [goLookup]
    · have hk : k' ≠ k := by
        intro hh; subst hh
        exact (List.nodup_cons.1 hnd).1 (List.mem_map.2 ⟨(k', v), hmem', rfl⟩)
      have henc : enc k' ≠ enc k := fun hh => hk (hinj _ _ hh)
      rw [List.map_cons, List.nodup_cons] at hnd
      simp only [List.map_cons, goLookup, if_neg henc]
      exact ih hnd.2 hmem'

/-- A hit in the front part of a concatenated list wins. -/
theorem goLookup_append_some {α : Type} {l1 l2 : List (String × α)} {k : String} {v : α}
    (h : goLookup l1 k = some v) : goLookup (l1 ++ l2) k = some v := by
  induction l1 with
  | nil => simp [goLookup] at h
  | cons e rest ih =>
    obtain ⟨k', v'⟩ := e
    by_cases hk : k' = k
    · simpa [goLookup, hk] using h
    · simp only [goLookup, if_neg hk] at h
      simpa [goLookup, hk] using ih h

/-- Lookup skips a front part none of whose keys is the one searched for. -/
theorem goLookup_append_of_ne {α : Type} (l1 l2 : List (String × α)) (k : String)
    (h : ∀ e ∈ l1, e.1 ≠ k) : goLookup (l1 ++ l2) k = goLookup l2 k := by
  induction l1 with
  | nil => simp
  | cons e rest ih =>
    obtain ⟨k', v'⟩ := e
    have hk : k' ≠ k := h (k', v') (List.mem_cons_self _ _)
    simp only [List.cons_append, goLookup, if_neg hk]
    exact ih fun e' he' => h e' (List.mem_cons_of_mem _ he')

/-- Distinct endpoints get distinct ReqPerEndpoint metric names. -/
theorem rpeKey_inj (a b : String) (h : rpeKey a = rpeKey b) : a = b :=
  strcat_inj "Component/ReqPerEndpoint/" "[requests]" a b h

/-- No endpoint's ReqPerEndpoint metric name collides with the overall name. -/
theorem rpeKey_ne_overallKey (a : String) : rpeKey a ≠ rpeOverallKey :=
  strcat_ne_overall "Component/ReqPerEndpoint/" "[requests]" "Component/Req/overall" a
    (by decide)

/-- Distinct endpoints get distinct ErrorRatePerEndpoint metric names. -/
theorem erpeKey_inj (a b : String) (h : erpeKey a = erpeKey b) : a = b :=
  strcat_inj "Component/ErrorRatePerEndpoint/" "[percent]" a b h

/-- No endpoint's ErrorRatePerEndpoint metric name collides with the overall
name. -/
theorem erpeKey_ne_overallKey (a : String) : erpeKey a ≠ erpeOverallKey :=
  strcat_ne_overall "Component/ErrorRatePerEndpoint/" "[percent]"
    "Component/ErrorRate/overall" a (by decide)

/-- Distinct endpoints get distinct ResponseTimePerEndpoint metric names. -/
theorem rtpeKey_inj (a b : String) (h : rtpeKey a = rtpeKey b) : a = b :=
  strcat_inj "Component/ResponseTimePerEndpoint/" "[ms]" a b h

/-- No endpoint's ResponseTimePerEndpoint metric name collides with the overall
name. -/
theorem rtpeKey_ne_overallKey (a : String) : rtpeKey a ≠ rtpeOverallKey :=
  strcat_ne_overall "Component/ResponseTimePerEndpoint/" "[ms]"
    "Component/ResponseTime/overall" a (by decide)

/-- What ReqPerEndpoint.ValueMap reports for a present endpoint: its counter
value as a float. -/
theorem rpe_lookup_ValueMap (m : ReqPerEndpoint)
    (hnd : (m.reqCount.map Prod.fst).Nodup) (k : String)
    (hk : k ∈ m.reqCount.map Prod.fst) :
    goLookup (m.ValueMap).1 (rpeKey k) = some ((goLookupD m.reqCount k 0 : Nat) : ℚ) := by
  obtain ⟨v, hlk, hmem⟩ := exists_goLookup_of_mem_fst hk
  have h1 := goLookup_map_enc rpeKey (fun ev => ((ev.2 : Nat) : ℚ)) rpeKey_inj
    m.reqCount hnd k v hmem
  have h2 : goLookupD m.reqCount k 0 = v := by simp [goLookupD, hlk]
  rw [h2]
  exact goLookup_append_some h1

/-- What ReqPerEndpoint.ValueMap reports under the overall name: the sum of all
counters. -/
theorem rpe_lookup_ValueMap_overall (m : ReqPerEndpoint) :
    goLookup (m.ValueMap).1 rpeOverallKey =
      some (((m.reqCount.map fun ev => ev.2).sum : Nat) : ℚ) := by
  have hne : ∀ e ∈ m.reqCount.map fun ev => (rpeKey ev.1, ((ev.2 : Nat) : ℚ)),
      e.1 ≠ rpeOverallKey := by
    intro e he
    obtain ⟨ev, _, rfl⟩ := List.mem_map.1 he
    exact rpeKey_ne_overallKey ev.1
  rw [ReqPerEndpoint.ValueMap, goLookup_append_of_ne _ _ _ hne]
  simp [goLookup]

/-- What ErrorRatePerEndpoint.ValueMap reports for a present endpoint: the
error ratio, or 0 when the endpoint saw no request. -/
theorem erpe_lookup_ValueMap (m : ErrorRatePerEndpoint)
    (hnd : (m.errorCount.map Prod.fst).Nodup) (k : String)
    (hk : k ∈ m.errorCount.map Prod.fst) :
    goLookup (m.ValueMap).1 (erpeKey k) =
      some (if 0 < goLookupD m.reqCount k 0 then
        ((goLookupD m.errorCount k 0 : Nat) : ℚ) / ((goLookupD m.reqCount k 0 : Nat) : ℚ)
      else 0) := by
  obtain ⟨v, hlk, hmem⟩ := exists_goLookup_of_mem_fst hk
  have h1 := goLookup_map_enc erpeKey
    (fun ev => if 0 < goLookupD m.reqCount ev.1 0 then
      ((ev.2 : Nat) : ℚ) / ((goLookupD m.reqCount ev.1 0 : Nat) : ℚ) else 0)
    erpeKey_inj m.errorCount hnd k v hmem
  have h2 : goLookupD m.errorCount k 0 = v := by simp [goLookupD, hlk]
  rw [h2]
  exact goLookup_append_some h1

/-- What ErrorRatePerEndpoint.ValueMap reports under the overall name: summed
errors over summed requests, or 0 when there was no request at all. -/
theorem erpe_lookup_ValueMap_overall (m : ErrorRatePerEndpoint) :
    goLookup (m.ValueMap).1 erpeOverallKey =
      some (if 0 < (m.errorCount.map fun ev => goLookupD m.reqCount ev.1 0).sum then
        (((m.errorCount.map fun ev => ev.2).sum : Nat) : ℚ) /
          (((m.errorCount.map fun ev => goLookupD m.reqCount ev.1 0).sum : Nat) : ℚ)
      else 0) := by
  have hne : ∀ e ∈ m.errorCount.map fun ev =>
      (erpeKey ev.1,
        if 0 < goLookupD m.reqCount ev.1 0 then
          ((ev.2 : Nat) : ℚ) / ((goLookupD m.reqCount ev.1 0 : Nat) : ℚ)
        else 0), e.1 ≠ erpeOverallKey := by
    intro e he
    obtain ⟨ev, _, rfl⟩ := List.mem_map.1 he
    exact erpeKey_ne_overallKey ev.1
  rw [ErrorRatePerEndpoint.ValueMap, goLookup_append_of_ne _ _ _ hne]
  simp [goLookup]

/-- What ResponseTimePerEndpoint.ValueMap reports for a present endpoint: the
pooled average, or 0 when the endpoint saw no request. -/
theorem rtpe_lookup_ValueMap (m : ResponseTimePerEndpoint)
    (hnd : (m.responseTime.map Prod.fst).Nodup) (k : String) (ts : List ℚ)
    (hk : goLookup m.responseTime k = some ts) :
    goLookup (m.ValueMap).1 (rtpeKey k) =
      some (if 0 < goLookupD m.reqCount k 0 then
        ts.sum / ((goLookupD m.reqCount k 0 : Nat) : ℚ)
      else 0) := by
  have hmem := mem_of_goLookup_eq_some hk
  have h1 := goLookup_map_enc rtpeKey
    (fun ev => if 0 < goLookupD m.reqCount ev.1 0 then
      ev.2.sum / ((goLookupD m.reqCount ev.1 0 : Nat) : ℚ) else 0)
    rtpeKey_inj m.responseTime hnd k ts hmem
  exact goLookup_append_some h1

/-- What ResponseTimePerEndpoint.ValueMap reports under the overall name:
summed recorded times over summed requests, or 0 when there was no request. -/
theorem rtpe_lookup_ValueMap_overall (m : ResponseTimePerEndpoint) :
    goLookup (m.ValueMap).1 rtpeOverallKey =
      some (if 0 < (m.responseTime.map fun ev => goLookupD m.reqCount ev.1 0).sum then
        (m.responseTime.map fun ev => ev.2.sum).sum /
          (((m.responseTime.map fun ev => goLookupD m.reqCount ev.1 0).sum : Nat) : ℚ)
      else 0) := by
  have hne : ∀ e ∈ m.responseTime.map fun ev =>
      (rtpeKey ev.1,
        if 0 < goLookupD m.reqCount ev.1 0 then
          ev.2.sum / ((goLookupD m.reqCount ev.1 0 : Nat) : ℚ)
        else 0), e.1 ≠ rtpeOverallKey := by
    intro e he
    obtain ⟨ev, _, rfl⟩ := List.mem_map.1 he
    exact rtpeKey_ne_overallKey ev.1
  rw [ResponseTimePerEndpoint.ValueMap, goLookup_append_of_ne _ _ _ hne]
  simp [goLookup]

/-- Updates never change the registered endpoint table. -/
theorem applyReqUpdates_endpoints (ps : List String) (m : ReqPerEndpoint) :
    (applyReqUpdates m ps).endpoints = m.endpoints := by
  induction ps generalizing m with
  | nil => rfl
  | cons p rest ih => exact ih (m.Update p)

/-- Counter value after a burst of updates all classifying to `E`: the burst
length lands on `E`, every other counter is untouched. -/
theorem goLookupD_applyReqUpdates (ps : List String) (m : ReqPerEndpoint) (E k : String)
    (hps : ∀ p ∈ ps, endpointFromURL m.endpoints p = E) :
    goLookupD (applyReqUpdates m ps).reqCount k 0 =
      goLookupD m.reqCount k 0 + (if k = E then ps.length else 0) := by
  induction ps generalizing m with
  | nil => simp [applyReqUpdates]
  | cons p rest ih =>
    have hstep : applyReqUpdates m (p :: rest) = applyReqUpdates (m.Update p) rest := rfl
    have hend : (m.Update p).endpoints = m.endpoints := rfl
    rw [hstep, ih (m.Update p) (fun q hq => by rw [hend]; exact hps q (List.mem_cons_of_mem _ hq))]
    have hclass : endpointFromURL m.endpoints p = E := hps p (List.mem_cons_self _ _)
    have hupd : goLookupD (m.Update p).reqCount k 0 =
        goLookupD m.reqCount k 0 + (if k = E then 1 else 0) := by
      show goLookupD (goInsert m.reqCount (endpointFromURL m.endpoints p) _) k 0 = _
      rw [goLookupD_goInsert, hclass]
      by_cases hkE : k = E
      · simp [hkE]
      · simp [hkE]
    rw [hupd]
    by_cases hkE : k = E
    · simp [hkE]
      omega
    · simp [hkE]

/-- Updates preserve the counter key list as long as every path classifies to a
key already present. -/
theorem map_fst_applyReqUpdates (ps : List String) (m : ReqPerEndpoint)
    (hps : ∀ p ∈ ps, endpointFromURL m.endpoints p ∈ m.reqCount.map Prod.fst) :
    (applyReqUpdates m ps).reqCount.map Prod.fst = m.reqCount.map Prod.fst := by
  induction ps generalizing m with
  | nil => rfl
  | cons p rest ih =>
    have hstep : applyReqUpdates m (p :: rest) = applyReqUpdates (m.Update p) rest := rfl
    have hkeys : (m.Update p).reqCount.map Prod.fst = m.reqCount.map Prod.fst :=
      map_fst_goInsert_of_mem _ (hps p (List.mem_cons_self _ _))
    rw [hstep, ih (m.Update p) (fun q hq => by
      rw [hkeys]; exact hps q (List.mem_cons_of_mem _ hq)), hkeys]

/-- The total of all counters after a burst of updates grows by exactly the
burst length: no request is lost or double counted. -/
theorem sum_applyReqUpdates (ps : List String) (m : ReqPerEndpoint) :
    ((applyReqUpdates m ps).reqCount.map fun ev => ev.2).sum =
      (m.reqCount.map fun ev => ev.2).sum + ps.length := by
  induction ps generalizing m with
  | nil => simp [applyReqUpdates]
  | cons p rest ih =>
    have hstep : applyReqUpdates m (p :: rest) = applyReqUpdates (m.Update p) rest := rfl
    rw [hstep, ih (m.Update p)]
    have : ((m.Update p).reqCount.map fun ev => ev.2).sum =
        (m.reqCount.map fun ev => ev.2).sum + 1 :=
      sum_map_snd_goInsert_bump m.reqCount (endpointFromURL m.endpoints p)
    rw [this]
    simp [List.length_cons]
    omega

/-- A goroutine that has returned never invokes sendMetrics again. -/
theorem runLoop_not_running (s : LoopState) (h : s.goroutineRunning = false)
    (events : List LoopEvent) : (runLoop s events).2 = 0 := by
  induction events with
  | nil => rfl
  | cons e rest ih =>
    have hstep : loopStep s e = (s, false) := by
      simp [loopStep, h]
    simp [runLoop, hstep, ih]

/-- Classification falls back to the sentinel when every matcher rejects the
path, whatever the entry order. -/
theorem endpointFromURL_eq_other (l : List (String × Matcher)) (p : String)
    (h : ∀ e ∈ l, e.2 p = false) : endpointFromURL l p = unknownEndpoint := by
  induction l with
  | nil => rfl
  | cons e rest ih =>
    obtain ⟨k, f⟩ := e
    have hf : f p = false := h (k, f) (List.mem_cons_self _ _)
    simp only [endpointFromURL, hf, Bool.false_eq_true, if_false]
    exact ih fun e' he' => h e' (List.mem_cons_of_mem _ he')

/-- When every matching entry of the table bears the same name, classification
over any entry list drawn from the table containing such an entry returns that
name. -/
theorem endpointFromURL_unique (table : List (String × Matcher)) (p name : String)
    (f : Matcher) (huniq : ∀ e ∈ table, e.2 p = true → e.1 = name) :
    ∀ l : List (String × Matcher), (∀ e ∈ l, e ∈ table) → (name, f) ∈ l →
      f p = true → endpointFromURL l p = name := by
  intro l
  induction l with
  | nil => intro _ hmem _; simp at hmem
  | cons e rest ih =>
    intro hsub hmem hf
    obtain ⟨k, g⟩ := e
    by_cases hg : g p = true
    · have hk : k = name := huniq (k, g) (hsub _ (List.mem_cons_self _ _)) hg
      simp [endpointFromURL, hg, hk]
    · have hmem' : (name, f) ∈ rest := by
        rcases List.mem_cons.1 hmem with h1 | h1
        · exfalso
          rw [Prod.mk.injEq] at h1
          obtain ⟨_, hfg⟩ := h1
          rw [hfg] at hf
          exact hg hf
        · exact h1
      simp only [endpointFromURL, hg, if_false]
      exact ih (fun e' he' => hsub e' (List.mem_cons_of_mem _ he')) hmem' hf

/-- C1 counterexample: register "a" with a matcher for "/x", then "b" with an
overlapping matcher for "/x" and "/y".  The reversed entry list is a
permutation of the registration table's entries, hence a possible Go map
iteration order, yet classifying "/x" over it yields "b", not the
first-registered "a": classification is not determined by registration
order. -/
theorem C1_first_registered_cex :
    List.Perm [("b", xyMatcher), ("a", xMatcher)]
      (AddDefaultEndpoint (AddDefaultEndpoint [] "a" xMatcher) "b" xyMatcher) ∧
    endpointFromURL [("b", xyMatcher), ("a", xMatcher)] "/x" = "b" ∧
    endpointFromURL
      (AddDefaultEndpoint (AddDefaultEndpoint [] "a" xMatcher) "b" xyMatcher) "/x" = "a" ∧
    ("b" : String) ≠ "a" := by
  refine ⟨?_, by decide, by decide, by decide⟩
  exact List.Perm.swap ("a", xMatcher) ("b", xyMatcher) []

/-- C1 (amended): over every iteration order of the endpoints map (any
permutation of the registration table's entries), endpointFromURL returns the
sentinel "other" when no registered matcher accepts the path, and returns the
matching endpoint's name whenever all matchers accepting the path carry one
single name — in particular registration order is irrelevant for disjoint
matchers.  When matchers of different names overlap on the path, the winner
depends on the unspecified map iteration order, not on registration order. -/
theorem C1_classify (table iter : List (String × Matcher)) (urlPath name : String)
    (f : Matcher) (hperm : List.Perm iter table) :
    ((∀ e ∈ table, e.2 urlPath = false) →
      endpointFromURL iter urlPath = unknownEndpoint) ∧
    ((name, f) ∈ table → f urlPath = true →
      (∀ e ∈ table, e.2 urlPath = true → e.1 = name) →
      endpointFromURL iter urlPath = name) := by
  constructor
  · intro h
    exact endpointFromURL_eq_other iter urlPath fun e he => h e (hperm.mem_iff.1 he)
  · intro hmem hf huniq
    exact endpointFromURL_unique table urlPath name f huniq iter
      (fun e he => hperm.mem_iff.1 he) (hperm.mem_iff.2 hmem) hf

/-- C1 witness: with the single registered endpoint "log", the unmatched path
"/unknown" classifies to the sentinel and "/log" classifies to "log". -/
theorem C1_classify_witness :
    endpointFromURL [("log", logMatcher)] "/unknown" = unknownEndpoint ∧
    endpointFromURL [("log", logMatcher)] "/log" = "log" := by
  have h := C1_classify [("log", logMatcher)] [("log", logMatcher)] "/unknown" "log"
    logMatcher (List.Perm.refl _)
  have h2 := C1_classify [("log", logMatcher)] [("log", logMatcher)] "/log" "log"
    logMatcher (List.Perm.refl _)
  refine ⟨h.1 ?_, h2.2 (List.mem_singleton.2 rfl) (by decide) ?_⟩
  · intro e he
    rw [List.mem_singleton] at he
    subst he
    decide
  · intro e he
    rw [List.mem_singleton] at he
    subst he
    intro _
    rfl

/-- C4 counterexample: one tick whose sendMetrics raises an unexpected runtime
fault leaves the goroutine returned, and the next tick does not invoke
sendMetrics — against the claim that the loop is never terminated and the next
tick still calls sendMetrics. -/
theorem C4_tick_fault_cex :
    (loopStep startLoopState (LoopEvent.tick TickFault.runtimePanic)).1.goroutineRunning
        = false ∧
    (loopStep (loopStep startLoopState (LoopEvent.tick TickFault.runtimePanic)).1
        (LoopEvent.tick TickFault.noFault)).2 = false := by
  decide

/-- C4 (amended): a serialization or transmission failure inside one tick's
sendMetrics is handled inside the call — the loop state is untouched and the
next tick invokes sendMetrics again.  An unexpected runtime fault, however, is
caught only by the recover wrapped around the whole goroutine body: the crash
is logged and the process survives, but the goroutine returns, so the
scheduling loop terminates and no later event ever invokes sendMetrics. -/
theorem C4_tick_fault (s : LoopState) (hrun : s.goroutineRunning = true)
    (htick : s.tickerActive = true) :
    ((loopStep s (LoopEvent.tick TickFault.serializationFailure)).1 = s ∧
      (loopStep s (LoopEvent.tick TickFault.serializationFailure)).2 = true ∧
      (loopStep (loopStep s (LoopEvent.tick TickFault.serializationFailure)).1
        (LoopEvent.tick TickFault.noFault)).2 = true) ∧
    ((loopStep s (LoopEvent.tick TickFault.transmissionFailure)).1 = s ∧
      (loopStep s (LoopEvent.tick TickFault.transmissionFailure)).2 = true ∧
      (loopStep (loopStep s (LoopEvent.tick TickFault.transmissionFailure)).1
        (LoopEvent.tick TickFault.noFault)).2 = true) ∧
    ((loopStep s (LoopEvent.tick TickFault.runtimePanic)).1.crashLogged = true ∧
      (loopStep s (LoopEvent.tick TickFault.runtimePanic)).1.goroutineRunning = false ∧
      ∀ events : List LoopEvent,
        (runLoop (loopStep s (LoopEvent.tick TickFault.runtimePanic)).1 events).2 = 0) := by
  have hser : loopStep s (LoopEvent.tick TickFault.serializationFailure) = (s, true) := by
    simp [loopStep, hrun, htick, sendMetricsCompletes]
  have htra : loopStep s (LoopEvent.tick TickFault.transmissionFailure) = (s, true) := by
    simp [loopStep, hrun, htick, sendMetricsCompletes]
  have hno : loopStep s (LoopEvent.tick TickFault.noFault) = (s, true) := by
    simp [loopStep, hrun, htick, sendMetricsCompletes]
  have hpan : loopStep s (LoopEvent.tick TickFault.runtimePanic) =
      ({ s with goroutineRunning := false, crashLogged := true }, true) := by
    simp [loopStep, hrun, htick, sendMetricsCompletes]
  refine ⟨⟨?_, ?_, ?_⟩, ⟨?_, ?_, ?_⟩, ?_, ?_, ?_⟩
  · rw [hser]
  · rw [hser]
  · rw [hser]; rw [hno]
  · rw [htra]
  · rw [htra]
  · rw [htra]; rw [hno]
  · rw [hpan]
  · rw [hpan]
  · intro events
    rw [hpan]
    exact runLoop_not_running _ rfl events

/-- C4 witness: from the freshly started loop, the two handled failures leave
the next tick sending, while the runtime fault logs the crash and no later
tick sends. -/
theorem C4_tick_fault_witness :
    (loopStep (loopStep startLoopState (LoopEvent.tick TickFault.serializationFailure)).1
        (LoopEvent.tick TickFault.noFault)).2 = true ∧
    (loopStep (loopStep startLoopState (LoopEvent.tick TickFault.transmissionFailure)).1
        (LoopEvent.tick TickFault.noFault)).2 = true ∧
    (loopStep startLoopState (LoopEvent.tick TickFault.runtimePanic)).1.crashLogged = true ∧
    (runLoop (loopStep startLoopState (LoopEvent.tick TickFault.runtimePanic)).1
        [LoopEvent.tick TickFault.noFault, LoopEvent.tick TickFault.noFault]).2 = 0 := by
  have h := C4_tick_fault startLoopState rfl rfl
  exact ⟨h.1.2.2, h.2.1.2.2, h.2.2.1, h.2.2.2.2 _⟩

/-- C5: behaviour of the quit path the loop defines (reporter.go lines
116-119): once a quit message is processed, the ticker is stopped and the
goroutine returns, so no later event — however often the timer interval
elapses — makes the loop invoke sendMetrics.  No exported operation of the
package can ever send on the quit channel, which is a local variable of
Start; see the C5 result entry. -/
theorem C5_quit_semantics (s : LoopState) (events : List LoopEvent) :
    (runLoop (loopStep s LoopEvent.quitSignal).1 events).2 = 0 := by
  by_cases h : s.goroutineRunning = true
  · have hstep : loopStep s LoopEvent.quitSignal =
        ({ s with goroutineRunning := false, tickerActive := false }, false) := by
      simp [loopStep, h]
    rw [hstep]
    exact runLoop_not_running _ rfl events
  · have hfalse : s.goroutineRunning = false := by
      revert h; cases s.goroutineRunning <;> simp
    have hstep : loopStep s LoopEvent.quitSignal = (s, false) := by
      simp [loopStep, hfalse]
    rw [hstep]
    exact runLoop_not_running _ hfalse events

/-- C8: a response-time update whose request context lacks the "reqStartTime"
value is a no-op on the accumulator state — no counter incremented, no
response time recorded, subsequent reports unchanged — and the condition is
logged as a recoverable error (the returned flag) while the update returns
normally. -/
theorem C8_missing_start_time (m : ResponseTimePerEndpoint) (now : ℚ) (urlPath : String) :
    (m.Update none now urlPath).1 = m ∧
    (m.Update none now urlPath).2 = true ∧
    ((m.Update none now urlPath).1.ValueMap).1 = (m.ValueMap).1 :=
  ⟨rfl, rfl, rfl⟩

/-- C9 counterexample: re-registering the already registered name "log" does
not leave the table unchanged (and nothing signals an error): afterwards the
matcher stored under "log" accepts "/other-path", which the originally
registered matcher rejects. -/
theorem C9_duplicate_registration_cex :
    goLookupD (AddDefaultEndpoint (AddDefaultEndpoint [] "log" logMatcher) "log" allMatcher)
        "log" (fun _ => false) "/other-path" = true ∧
    logMatcher "/other-path" = false := by
  exact ⟨by decide, by decide⟩

/-- C9 (amended): AddDefaultEndpoint with an already registered name silently
overwrites that name's matcher: afterwards the table maps the name to the new
matcher, the key set is unchanged, and no error is reported — the function has
no error result at all. -/
theorem C9_duplicate_registration (table : List (String × Matcher)) (name : String)
    (g : Matcher) (hmem : name ∈ table.map Prod.fst) :
    goLookup (AddDefaultEndpoint table name g) name = some g ∧
    (AddDefaultEndpoint table name g).map Prod.fst = table.map Prod.fst :=
  ⟨goLookup_goInsert_self table name g, map_fst_goInsert_of_mem g hmem⟩

/-- C9 witness: overwriting the registered "log" endpoint stores the new
matcher and keeps the key set at exactly "log". -/
theorem C9_duplicate_registration_witness :
    goLookup (AddDefaultEndpoint [("log", logMatcher)] "log" allMatcher) "log"
        = some allMatcher ∧
    (AddDefaultEndpoint [("log", logMatcher)] "log" allMatcher).map Prod.fst = ["log"] := by
  have h := C9_duplicate_registration [("log", logMatcher)] "log" allMatcher (by simp)
  exact ⟨h.1, by rw [h.2]; rfl⟩

/-- C3: starting from a freshly constructed (equivalently freshly drained)
request counter over endpoints `eps`, after exactly the updates of a burst all
of whose paths classify to the registered endpoint E and nothing else,
ValueMap reports the burst length (as a float) for E under its metric name,
0 for every other registered endpoint and for the sentinel "other", and the
burst length under the overall key (the sum over all endpoints). -/
theorem C3_request_count (eps : List (String × Matcher)) (ps : List String) (E : String)
    (hE : E ∈ eps.map Prod.fst) (hEo : E ≠ unknownEndpoint)
    (hps : ∀ p ∈ ps, endpointFromURL eps p = E) :
    goLookup ((applyReqUpdates (NewReqPerEndpoint eps) ps).ValueMap).1 (rpeKey E)
        = some ((ps.length : Nat) : ℚ) ∧
    (∀ F ∈ eps.map Prod.fst, F ≠ E →
      goLookup ((applyReqUpdates (NewReqPerEndpoint eps) ps).ValueMap).1 (rpeKey F)
        = some 0) ∧
    goLookup ((applyReqUpdates (NewReqPerEndpoint eps) ps).ValueMap).1
        (rpeKey unknownEndpoint) = some 0 ∧
    goLookup ((applyReqUpdates (NewReqPerEndpoint eps) ps).ValueMap).1 rpeOverallKey
        = some ((ps.length : Nat) : ℚ) := by
  have hend : (NewReqPerEndpoint eps).endpoints = eps := rfl
  have hall : ∀ e ∈ (NewReqPerEndpoint eps).reqCount, e.2 = 0 := all_snd_initMapWith eps 0
  have hmemkeys : ∀ k : String, k ∈ (NewReqPerEndpoint eps).reqCount.map Prod.fst ↔
      k ∈ eps.map Prod.fst ∨ k = unknownEndpoint := fun k => mem_map_fst_initMapWith eps 0 k
  have hnd0 : ((NewReqPerEndpoint eps).reqCount.map Prod.fst).Nodup :=
    nodup_map_fst_initMapWith eps 0
  have hkeys : (applyReqUpdates (NewReqPerEndpoint eps) ps).reqCount.map Prod.fst =
      (NewReqPerEndpoint eps).reqCount.map Prod.fst := by
    refine map_fst_applyReqUpdates ps _ fun p hp => ?_
    rw [hend, hps p hp]
    exact (hmemkeys E).2 (Or.inl hE)
  have hnd : ((applyReqUpdates (NewReqPerEndpoint eps) ps).reqCount.map Prod.fst).Nodup := by
    rw [hkeys]; exact hnd0
  have hchar : ∀ k : String,
      goLookupD (applyReqUpdates (NewReqPerEndpoint eps) ps).reqCount k 0 =
        if k = E then ps.length else 0 := by
    intro k
    rw [goLookupD_applyReqUpdates ps _ E k (fun p hp => by rw [hend]; exact hps p hp)]
    rw [goLookupD_eq_of_all hall k]
    simp
  refine ⟨?_, ?_, ?_, ?_⟩
  · have hkE : E ∈ (applyReqUpdates (NewReqPerEndpoint eps) ps).reqCount.map Prod.fst := by
      rw [hkeys]; exact (hmemkeys E).2 (Or.inl hE)
    rw [rpe_lookup_ValueMap _ hnd E hkE, hchar E]
    simp
  · intro F hF hFE
    have hkF : F ∈ (applyReqUpdates (NewReqPerEndpoint eps) ps).reqCount.map Prod.fst := by
      rw [hkeys]; exact (hmemkeys F).2 (Or.inl hF)
    rw [rpe_lookup_ValueMap _ hnd F hkF, hchar F]
    simp [hFE]
  · have hko : unknownEndpoint ∈
        (applyReqUpdates (NewReqPerEndpoint eps) ps).reqCount.map Prod.fst := by
      rw [hkeys]; exact (hmemkeys unknownEndpoint).2 (Or.inr rfl)
    rw [rpe_lookup_ValueMap _ hnd unknownEndpoint hko, hchar unknownEndpoint]
    simp [Ne.symm hEo]
  · rw [rpe_lookup_ValueMap_overall]
    have hz : ((NewReqPerEndpoint eps).reqCount.map fun ev => ev.2).sum = 0 := by
      refine List.sum_eq_zero fun x hx => ?_
      obtain ⟨e, he, rfl⟩ := List.mem_map.1 hx
      exact hall e he
    rw [sum_applyReqUpdates ps (NewReqPerEndpoint eps), hz]
    simp

/-- C3 witness: two requests to "/log" with "log" registered report 2 for
"log", 0 for the sentinel and 2 overall. -/
theorem C3_request_count_witness :
    goLookup ((applyReqUpdates (NewReqPerEndpoint [("log", logMatcher)])
        ["/log", "/log"]).ValueMap).1 (rpeKey "log") = some 2 ∧
    goLookup ((applyReqUpdates (NewReqPerEndpoint [("log", logMatcher)])
        ["/log", "/log"]).ValueMap).1 (rpeKey unknownEndpoint) = some 0 ∧
    goLookup ((applyReqUpdates (NewReqPerEndpoint [("log", logMatcher)])
        ["/log", "/log"]).ValueMap).1 rpeOverallKey = some 2 := by
  have h := C3_request_count [("log", logMatcher)] ["/log", "/log"] "log"
    (by decide) (by decide) (by decide)
  refine ⟨?_, h.2.2.1, ?_⟩
  · have h1 := h.1
    norm_num at h1
    exact h1
  · have h4 := h.2.2.2
    norm_num at h4
    exact h4

/-- C2: ErrorRatePerEndpoint reporting.  On every accumulator state with
duplicate-free error-map keys (true of every state the code reaches): every
known endpoint's key is present in the report — never omitted — with value
errorCount/totalCount, and 0.0 when the endpoint's totalCount is 0; the
overall key holds the sum of all errorCounts divided by the sum of all
totalCounts, the pooled ratio, not the mean of the per-endpoint ratios.  In
the TestErrorRate scenario — four updates with status 404 then four with
status 200 on the "log" endpoint — both the "log" key and the overall key
report 0.5. -/
theorem C2_error_rate (m : ErrorRatePerEndpoint)
    (hnd : (m.errorCount.map Prod.fst).Nodup) :
    (∀ e ∈ m.errorCount.map Prod.fst,
      goLookup (m.ValueMap).1 (erpeKey e) =
        some (if 0 < goLookupD m.reqCount e 0 then
          ((goLookupD m.errorCount e 0 : Nat) : ℚ) / ((goLookupD m.reqCount e 0 : Nat) : ℚ)
        else 0)) ∧
    (goLookup (m.ValueMap).1 erpeOverallKey =
      some (if 0 < ((m.errorCount.map Prod.fst).map fun k => goLookupD m.reqCount k 0).sum
        then
          ((((m.errorCount.map Prod.fst).map fun k => goLookupD m.errorCount k 0).sum
              : Nat) : ℚ) /
            ((((m.errorCount.map Prod.fst).map fun k => goLookupD m.reqCount k 0).sum
              : Nat) : ℚ)
        else 0)) ∧
    (goLookup (ErrorRatePerEndpoint.ValueMap m8).1 (erpeKey "log") = some (1 / 2) ∧
      goLookup (ErrorRatePerEndpoint.ValueMap m8).1 erpeOverallKey = some (1 / 2)) := by
  have hden : ((m.errorCount.map Prod.fst).map fun k => goLookupD m.reqCount k 0) =
      m.errorCount.map fun ev => goLookupD m.reqCount ev.1 0 := by
    rw [List.map_map]; rfl
  have hnum : ((m.errorCount.map Prod.fst).map fun k => goLookupD m.errorCount k 0) =
      m.errorCount.map fun ev => ev.2 := by
    rw [List.map_map]
    refine List.map_congr_left fun ev hev => ?_
    exact goLookupD_eq_of_mem hnd (by rw [Prod.mk.eta]; exact hev) 0
  refine ⟨?_, ?_, ?_, ?_⟩
  · intro e he
    exact erpe_lookup_ValueMap m hnd e he
  · rw [hden, hnum]
    exact erpe_lookup_ValueMap_overall m
  · have hnd8 : (m8.errorCount.map Prod.fst).Nodup := by decide
    have hlk := erpe_lookup_ValueMap m8 hnd8 "log" (by decide)
    have he4 : goLookupD m8.errorCount "log" 0 = 4 := by decide
    have hr8 : goLookupD m8.reqCount "log" 0 = 8 := by decide
    rw [he4, hr8] at hlk
    rw [hlk]
    norm_num
  · have hlk := erpe_lookup_ValueMap_overall m8
    have hs4 : (m8.errorCount.map fun ev => ev.2).sum = 4 := by decide
    have hs8 : (m8.errorCount.map fun ev => goLookupD m8.reqCount ev.1 0).sum = 8 := by
      decide
    rw [hs4, hs8] at hlk
    rw [hlk]
    norm_num

/-- C2 witness: in the TestErrorRate state, the sentinel endpoint "other" saw
no request and its key is still present, reporting 0. -/
theorem C2_error_rate_witness :
    goLookup (ErrorRatePerEndpoint.ValueMap m8).1 (erpeKey "other") = some 0 := by
  have h := (C2_error_rate m8 (by decide)).1 "other" (by decide)
  have hr : goLookupD m8.reqCount "other" 0 = 0 := by decide
  rw [hr] at h
  simpa using h

/-- C6: drain is idempotent for every accumulator kind and every prior state:
a second ValueMap with no intervening Update reports only zero values, since
the first drain zeroes every counter and resets every response-time slice. -/
theorem C6_drain_idempotent :
    (∀ m : ReqPerEndpoint, ∀ kv ∈ ((m.ValueMap).2.ValueMap).1, kv.2 = 0) ∧
    (∀ m : ErrorRatePerEndpoint, ∀ kv ∈ ((m.ValueMap).2.ValueMap).1, kv.2 = 0) ∧
    (∀ m : ResponseTimePerEndpoint, ∀ kv ∈ ((m.ValueMap).2.ValueMap).1, kv.2 = 0) := by
  refine ⟨?_, ?_, ?_⟩
  · intro m kv hkv
    simp only [ReqPerEndpoint.ValueMap] at hkv
    rcases List.mem_append.1 hkv with h | h
    · obtain ⟨ev, hev, rfl⟩ := List.mem_map.1 h
      obtain ⟨ev0, _, rfl⟩ := List.mem_map.1 hev
      simp
    · rw [List.mem_singleton] at h
      subst h
      have hz : ((m.reqCount.map fun ev => (ev.1, 0)).map fun ev => ev.2).sum = 0 := by
        refine List.sum_eq_zero fun x hx => ?_
        obtain ⟨ev, hev, rfl⟩ := List.mem_map.1 hx
        obtain ⟨ev0, _, rfl⟩ := List.mem_map.1 hev
        rfl
      dsimp only
      rw [hz]
      exact Nat.cast_zero
  · intro m kv hkv
    simp only [ErrorRatePerEndpoint.ValueMap] at hkv
    have hz : ((m.errorCount.map fun ev => (ev.1, 0)).map fun ev => ev.2).sum = 0 := by
      refine List.sum_eq_zero fun x hx => ?_
      obtain ⟨ev, hev, rfl⟩ := List.mem_map.1 hx
      obtain ⟨ev0, _, rfl⟩ := List.mem_map.1 hev
      rfl
    rcases List.mem_append.1 hkv with h | h
    · obtain ⟨ev, hev, rfl⟩ := List.mem_map.1 h
      obtain ⟨ev0, _, rfl⟩ := List.mem_map.1 hev
      simp
    · rw [List.mem_singleton] at h
      subst h
      dsimp only
      rw [hz]
      simp
  · intro m kv hkv
    simp only [ResponseTimePerEndpoint.ValueMap] at hkv
    have hz : ((m.responseTime.map fun ev => (ev.1, ([0] : List ℚ))).map
        fun ev => ev.2.sum).sum = 0 := by
      refine List.sum_eq_zero fun x hx => ?_
      obtain ⟨ev, hev, rfl⟩ := List.mem_map.1 hx
      obtain ⟨ev0, _, rfl⟩ := List.mem_map.1 hev
      simp
    rcases List.mem_append.1 hkv with h | h
    · obtain ⟨ev, hev, rfl⟩ := List.mem_map.1 h
      obtain ⟨ev0, _, rfl⟩ := List.mem_map.1 hev
      simp
    · rw [List.mem_singleton] at h
      subst h
      dsimp only
      rw [hz]
      simp

/-- C6 witness: concrete second drains after real traffic report zero: the
request counter drained after one "/log" request, the TestErrorRate
accumulator drained after its eight updates, and a fresh response-time
accumulator drained once, all report 0 under their overall keys on the second
drain. -/
theorem C6_drain_idempotent_witness :
    goLookup (((applyReqUpdates (NewReqPerEndpoint [("log", logMatcher)])
        ["/log"]).ValueMap).2.ValueMap).1 rpeOverallKey = some 0 ∧
    goLookup ((ErrorRatePerEndpoint.ValueMap m8).2.ValueMap).1 erpeOverallKey = some 0 ∧
    goLookup (((NewResponseTimePerEndpoint [("log", logMatcher)]).ValueMap).2.ValueMap).1
        rtpeOverallKey = some 0 := by
  refine ⟨?_, ?_, ?_⟩
  · have hlk := rpe_lookup_ValueMap_overall
      ((applyReqUpdates (NewReqPerEndpoint [("log", logMatcher)]) ["/log"]).ValueMap).2
    have hz := C6_drain_idempotent.1
      (applyReqUpdates (NewReqPerEndpoint [("log", logMatcher)]) ["/log"])
      _ (mem_of_goLookup_eq_some hlk)
    simp only at hz
    rw [hz] at hlk
    exact hlk
  · have hlk := erpe_lookup_ValueMap_overall
      (ErrorRatePerEndpoint.ValueMap m8).2
    have hz := C6_drain_idempotent.2.1 m8 _ (mem_of_goLookup_eq_some hlk)
    simp only at hz
    rw [hz] at hlk
    exact hlk
  · have hlk := rtpe_lookup_ValueMap_overall
      ((NewResponseTimePerEndpoint [("log", logMatcher)]).ValueMap).2
    have hz := C6_drain_idempotent.2.2 (NewResponseTimePerEndpoint [("log", logMatcher)])
      _ (mem_of_goLookup_eq_some hlk)
    simp only at hz
    rw [hz] at hlk
    exact hlk

/-- C7: key completeness at initialisation, for any matcher registered under
"log": before any traffic, every accumulator kind already reports keys for
both "log" and the sentinel "other", each with value zero. -/
theorem C7_key_completeness (f : Matcher) :
    (goLookup ((NewReqPerEndpoint [("log", f)]).ValueMap).1 (rpeKey "log") = some 0 ∧
      goLookup ((NewReqPerEndpoint [("log", f)]).ValueMap).1 (rpeKey unknownEndpoint)
        = some 0) ∧
    (goLookup ((NewErrorRatePerEndpoint [("log", f)]).ValueMap).1 (erpeKey "log")
        = some 0 ∧
      goLookup ((NewErrorRatePerEndpoint [("log", f)]).ValueMap).1
        (erpeKey unknownEndpoint) = some 0) ∧
    (goLookup ((NewResponseTimePerEndpoint [("log", f)]).ValueMap).1 (rtpeKey "log")
        = some 0 ∧
      goLookup ((NewResponseTimePerEndpoint [("log", f)]).ValueMap).1
        (rtpeKey unknownEndpoint) = some 0) := by
  have hmem : ∀ k : String, k = "log" ∨ k = unknownEndpoint →
      k ∈ (initMapWith [("log", f)] (0 : Nat)).map Prod.fst := by
    intro k hk
    refine (mem_map_fst_initMapWith [("log", f)] 0 k).2 ?_
    rcases hk with hk | hk
    · exact Or.inl (by simp [hk])
    · exact Or.inr hk
  refine ⟨⟨?_, ?_⟩, ⟨?_, ?_⟩, ⟨?_, ?_⟩⟩
  · have hnd : ((NewReqPerEndpoint [("log", f)]).reqCount.map Prod.fst).Nodup :=
      nodup_map_fst_initMapWith [("log", f)] 0
    have hall : ∀ e ∈ (NewReqPerEndpoint [("log", f)]).reqCount, e.2 = 0 :=
      all_snd_initMapWith [("log", f)] 0
    have hk : "log" ∈ (NewReqPerEndpoint [("log", f)]).reqCount.map Prod.fst :=
      hmem "log" (Or.inl rfl)
    rw [rpe_lookup_ValueMap _ hnd "log" hk, goLookupD_eq_of_all hall "log"]
    simp
  · have hnd : ((NewReqPerEndpoint [("log", f)]).reqCount.map Prod.fst).Nodup :=
      nodup_map_fst_initMapWith [("log", f)] 0
    have hall : ∀ e ∈ (NewReqPerEndpoint [("log", f)]).reqCount, e.2 = 0 :=
      all_snd_initMapWith [("log", f)] 0
    have hk : unknownEndpoint ∈ (NewReqPerEndpoint [("log", f)]).reqCount.map Prod.fst :=
      hmem unknownEndpoint (Or.inr rfl)
    rw [rpe_lookup_ValueMap _ hnd unknownEndpoint hk,
      goLookupD_eq_of_all hall unknownEndpoint]
    simp
  · have hnd : ((NewErrorRatePerEndpoint [("log", f)]).errorCount.map Prod.fst).Nodup :=
      nodup_map_fst_initMapWith [("log", f)] 0
    have hallr : ∀ e ∈ (NewErrorRatePerEndpoint [("log", f)]).reqCount, e.2 = 0 :=
      all_snd_initMapWith [("log", f)] 0
    have hk : "log" ∈ (NewErrorRatePerEndpoint [("log", f)]).errorCount.map Prod.fst :=
      hmem "log" (Or.inl rfl)
    rw [erpe_lookup_ValueMap _ hnd "log" hk,
      goLookupD_eq_of_all hallr "log"]
    simp
  · have hnd : ((NewErrorRatePerEndpoint [("log", f)]).errorCount.map Prod.fst).Nodup :=
      nodup_map_fst_initMapWith [("log", f)] 0
    have hallr : ∀ e ∈ (NewErrorRatePerEndpoint [("log", f)]).reqCount, e.2 = 0 :=
      all_snd_initMapWith [("log", f)] 0
    have hk : unknownEndpoint ∈
        (NewErrorRatePerEndpoint [("log", f)]).errorCount.map Prod.fst :=
      hmem unknownEndpoint (Or.inr rfl)
    rw [erpe_lookup_ValueMap _ hnd unknownEndpoint hk,
      goLookupD_eq_of_all hallr unknownEndpoint]
    simp
  · have hnd : ((NewResponseTimePerEndpoint [("log", f)]).responseTime.map Prod.fst).Nodup :=
      nodup_map_fst_initMapWith [("log", f)] [0]
    have hallr : ∀ e ∈ (NewResponseTimePerEndpoint [("log", f)]).reqCount, e.2 = 0 :=
      all_snd_initMapWith [("log", f)] 0
    have hk : "log" ∈ (NewResponseTimePerEndpoint [("log", f)]).responseTime.map Prod.fst :=
      (mem_map_fst_initMapWith [("log", f)] ([0] : List ℚ) "log").2 (Or.inl (by simp))
    obtain ⟨ts, hts, _⟩ := exists_goLookup_of_mem_fst hk
    rw [rtpe_lookup_ValueMap _ hnd "log" ts hts,
      goLookupD_eq_of_all hallr "log"]
    simp
  · have hnd : ((NewResponseTimePerEndpoint [("log", f)]).responseTime.map Prod.fst).Nodup :=
      nodup_map_fst_initMapWith [("log", f)] [0]
    have hallr : ∀ e ∈ (NewResponseTimePerEndpoint [("log", f)]).reqCount, e.2 = 0 :=
      all_snd_initMapWith [("log", f)] 0
    have hk : unknownEndpoint ∈
        (NewResponseTimePerEndpoint [("log", f)]).responseTime.map Prod.fst :=
      (mem_map_fst_initMapWith [("log", f)] ([0] : List ℚ) unknownEndpoint).2 (Or.inr rfl)
    obtain ⟨ts, hts, _⟩ := exists_goLookup_of_mem_fst hk
    rw [rtpe_lookup_ValueMap _ hnd unknownEndpoint ts hts,
      goLookupD_eq_of_all hallr unknownEndpoint]
    simp

/-- C10: the ErrorRatePerEndpoint invariant.  After construction no error
counter exceeds its request counter; every Update preserves this (the request
counter is always incremented, the error counter only for status at least 400,
both on the classified endpoint); every drain preserves it (both maps are
zeroed together); and consequently every value a drain reports — per endpoint
and overall — lies in the interval from 0 to 1. -/
theorem C10_error_le_req :
    (∀ eps : List (String × Matcher), ErrInv (NewErrorRatePerEndpoint eps)) ∧
    (∀ (m : ErrorRatePerEndpoint) (urlPath : String) (status : Nat),
      ErrInv m → ErrInv (m.Update urlPath status)) ∧
    (∀ m : ErrorRatePerEndpoint, ErrInv m → ErrInv (m.ValueMap).2) ∧
    (∀ m : ErrorRatePerEndpoint, ErrInv m →
      ∀ kv ∈ (m.ValueMap).1, 0 ≤ kv.2 ∧ kv.2 ≤ 1) := by
  refine ⟨?_, ?_, ?_, ?_⟩
  · intro eps
    refine ⟨nodup_map_fst_initMapWith eps 0, fun k => ?_⟩
    have halle : ∀ e ∈ (NewErrorRatePerEndpoint eps).errorCount, e.2 = 0 :=
      all_snd_initMapWith eps 0
    rw [goLookupD_eq_of_all halle k]
    exact Nat.zero_le _
  · rintro m urlPath status ⟨hnd, hinv⟩
    constructor
    · show ((if 400 ≤ status then _ else m.errorCount).map Prod.fst).Nodup
      by_cases hst : 400 ≤ status
      · rw [if_pos hst]
        exact nodup_map_fst_goInsert _ _ hnd
      · rw [if_neg hst]
        exact hnd
    · intro k
      show goLookupD (if 400 ≤ status then _ else m.errorCount) k 0 ≤
        goLookupD (goInsert m.reqCount (endpointFromURL m.endpoints urlPath)
          (goLookupD m.reqCount (endpointFromURL m.endpoints urlPath) 0 + 1)) k 0
      rw [goLookupD_goInsert]
      by_cases hst : 400 ≤ status
      · rw [if_pos hst, goLookupD_goInsert]
        by_cases hk : k = endpointFromURL m.endpoints urlPath
        · rw [if_pos hk, if_pos hk]
          exact Nat.succ_le_succ (hinv _)
        · rw [if_neg hk, if_neg hk]
          exact hinv k
      · rw [if_neg hst]
        by_cases hk : k = endpointFromURL m.endpoints urlPath
        · rw [if_pos hk, hk]
          exact le_trans (hinv _) (Nat.le_succ _)
        · rw [if_neg hk]
          exact hinv k
  · rintro m ⟨hnd, _⟩
    constructor
    · show (((m.errorCount.map fun ev => (ev.1, 0)).map Prod.fst)).Nodup
      have hkeys : ((m.errorCount.map fun ev => (ev.1, 0)).map Prod.fst) =
          m.errorCount.map Prod.fst := by
        rw [List.map_map]; rfl
      rw [hkeys]
      exact hnd
    · intro k
      have hall : ∀ e ∈ (m.ValueMap).2.errorCount, e.2 = 0 := by
        intro e he
        obtain ⟨ev, _, rfl⟩ := List.mem_map.1 he
        rfl
      rw [goLookupD_eq_of_all hall k]
      exact Nat.zero_le _
  · rintro m ⟨hnd, hinv⟩ kv hkv
    simp only [ErrorRatePerEndpoint.ValueMap] at hkv
    rcases List.mem_append.1 hkv with h | h
    · obtain ⟨ev, hev, rfl⟩ := List.mem_map.1 h
      dsimp only
      by_cases hpos : 0 < goLookupD m.reqCount ev.1 0
      · rw [if_pos hpos]
        have hev2 : goLookupD m.errorCount ev.1 0 = ev.2 :=
          goLookupD_eq_of_mem hnd (by rw [Prod.mk.eta]; exact hev) 0
        have hle : ev.2 ≤ goLookupD m.reqCount ev.1 0 := by
          rw [← hev2]; exact hinv ev.1
        refine ⟨div_nonneg (Nat.cast_nonneg _) (Nat.cast_nonneg _), ?_⟩
        rw [div_le_one (by exact_mod_cast hpos)]
        exact_mod_cast hle
      · rw [if_neg hpos]
        norm_num
    · rw [List.mem_singleton] at h
      subst h
      dsimp only
      by_cases hpos : 0 < (m.errorCount.map fun ev => goLookupD m.reqCount ev.1 0).sum
      · rw [if_pos hpos]
        have hle : (m.errorCount.map fun ev => ev.2).sum ≤
            (m.errorCount.map fun ev => goLookupD m.reqCount ev.1 0).sum := by
          refine List.sum_le_sum fun ev hev => ?_
          have hev2 : goLookupD m.errorCount ev.1 0 = ev.2 :=
            goLookupD_eq_of_mem hnd (by rw [Prod.mk.eta]; exact hev) 0
          rw [← hev2]
          exact hinv ev.1
        refine ⟨div_nonneg (Nat.cast_nonneg _) (Nat.cast_nonneg _), ?_⟩
        rw [div_le_one (by exact_mod_cast hpos)]
        exact_mod_cast hle
      · rw [if_neg hpos]
        norm_num

/-- C10 witness: the invariant holds concretely across construction with the
"log" endpoint, one 404 update and one drain, and the drained report's "log"
value respects the bounds. -/
theorem C10_error_le_req_witness :
    ErrInv (NewErrorRatePerEndpoint [("log", logMatcher)]) ∧
    ErrInv ((NewErrorRatePerEndpoint [("log", logMatcher)]).Update "/log" 404) ∧
    ErrInv (((NewErrorRatePerEndpoint [("log", logMatcher)]).Update "/log" 404).ValueMap).2 ∧
    (0 ≤ (1 : ℚ) ∧ (1 : ℚ) ≤ 1) := by
  have h1 := C10_error_le_req.1 [("log", logMatcher)]
  have h2 := C10_error_le_req.2.1 (NewErrorRatePerEndpoint [("log", logMatcher)])
    "/log" 404 h1
  have h3 := C10_error_le_req.2.2.1 _ h2
  have hlk := erpe_lookup_ValueMap
    ((NewErrorRatePerEndpoint [("log", logMatcher)]).Update "/log" 404) h2.1 "log"
    (by decide)
  have hb := C10_error_le_req.2.2.2 _ h2 _ (mem_of_goLookup_eq_some hlk)
  refine ⟨h1, h2, h3, ?_⟩
  have he : goLookupD
      ((NewErrorRatePerEndpoint [("log", logMatcher)]).Update "/log" 404).errorCount
      "log" 0 = 1 := by decide
  have hr : goLookupD
      ((NewErrorRatePerEndpoint [("log", logMatcher)]).Update "/log" 404).reqCount
      "log" 0 = 1 := by decide
  rw [he, hr] at hb
  simpa using hb

end simplerelic
